import Mathlib

/-!
Verification of the portfolio aggregation and caching layer of the
Trizly-xyz/trizlySite repository (`src/portfolio/github-manager.js` and
`src/portfolio/config.js`), shallowly embedded in Lean.

Modelling conventions:
* JavaScript strings are Lean `String`s; every operation is defined on the
  underlying character list (`String.data`) so that all definitions reduce
  in the kernel.
* `Date.now()` timestamps and durations are `Nat` (milliseconds).
* JavaScript truthiness is modelled explicitly where the source relies on
  it (`null`/`undefined` as `Option.none`, the number `0` and the empty
  string as falsy).
* The external GitHub provider (reached through the `/api/github` proxy)
  is an oracle `ProviderEnv`: the outcome of each kind of request is a
  parameter. Thrown/rejected requests are the `.err` outcome.
* Each operation additionally returns the list of provider calls it
  performed, so "performs no fetch" / "exactly one fetch" claims are
  statements about that call log.
-/

namespace TrizlySite

/-- Character list of a JS string lowered with `toLowerCase` (ASCII model of
the Unicode lowering; all repository data in play is ASCII). -/
def toLowerList (l : List Char) : List Char := l.map Char.toLower

/-- Model of `String.prototype.toLowerCase()`. -/
def jsToLowerCase (s : String) : String := ⟨toLowerList s.data⟩

/-- Model of the JS `||` default idiom on an optional string: `undefined`,
`null` and the empty string are falsy, any other string is kept. -/
def jsOrStr (v : Option String) (fallback : String) : String :=
  match v with
  | some s => if s.data.isEmpty then fallback else s
  | none => fallback

/-- Ordinal (code-point) comparison of character lists, the primitive under
both string comparisons used by the source. -/
def charListCompare : List Char → List Char → Ordering
  | [], [] => .eq
  | [], _ :: _ => .lt
  | _ :: _, [] => .gt
  | a :: as, b :: bs =>
    if a.toNat < b.toNat then .lt
    else if b.toNat < a.toNat then .gt
    else charListCompare as bs

/-- Model of `String.prototype.localeCompare` (ICU default collation): the
primary key is the case-folded string; strings equal up to case are ordered
lowercase-first, which on ASCII is exactly the reverse of the ordinal
order of the raw strings. Agrees with ICU on all ASCII names in play. -/
def localeCompare (s t : String) : Int :=
  match charListCompare (toLowerList s.data) (toLowerList t.data) with
  | .lt => -1
  | .gt => 1
  | .eq =>
    match charListCompare t.data s.data with
    | .lt => -1
    | .gt => 1
    | .eq => 0

/-- Characters matched by `.` in a JS regex without the `s` flag: anything
except a line terminator. -/
def dotMatches (c : Char) : Bool :=
  c != '\n' && c != '\r' && c != Char.ofNat 0x2028 && c != Char.ofNat 0x2029

/-- Model of `name.match(/^lit(.+)$/i)` for a literal prefix `lit` (the
source's `repoPattern` is `/^portfolio(.+)$/i`): `some cap` is a successful
match with capture group 1 equal to `cap`, `none` is no match. The prefix is
compared case-insensitively; the capture is one or more non-line-terminator
characters reaching the end of the string. -/
def regexCapture (pat : String) (name : String) : Option String :=
  let pre := name.data.take pat.data.length
  let rest := name.data.drop pat.data.length
  if toLowerList pre == toLowerList pat.data && !rest.isEmpty && rest.all dotMatches
  then some ⟨rest⟩ else none

/-- Model of `s.charAt(0).toUpperCase() + s.slice(1)`. -/
def capitalizeFirst (s : String) : String :=
  match s.data with
  | [] => ""
  | c :: rest => ⟨c.toUpper :: rest⟩

/-- Repository descriptor as consumed from the GitHub `repos` response
(fields the source reads). `Option.none` models an absent/undefined or
null JSON field. -/
structure RepoDescriptor where
  name : String
  description : Option String
  html_url : String
  homepage : Option String
  stargazers_count : Nat
  forks_count : Nat
  updated_at : String
  language : Option String
  topics : Option (List String)
  default_branch : Option String
  «private» : Bool
  deriving Repr, DecidableEq

/-- Optional `portfolio.json` overlay fetched per repository (fields the
source reads). -/
structure PortfolioConfig where
  name : Option String
  description : Option String
  thumbnail : Option String
  featured : Option Bool
  deriving Repr, DecidableEq

/-- Normalized portfolio entry. Dynamic entries set every field; static
entries from the configuration set only `name`, `slug`, `path`,
`description` and `featured`, every other field being `undefined` in the
source (modelled as `none` / `false` / `[]`). -/
structure Portfolio where
  name : String
  slug : String
  path : Option String := none
  description : String
  repoUrl : Option String := none
  homepage : Option String := none
  stars : Option Nat := none
  forks : Option Nat := none
  updatedAt : Option String := none
  language : Option String := none
  topics : Option (List String) := none
  defaultBranch : Option String := none
  thumbnail : Option String := none
  isDynamic : Bool := false
  featured : Bool
  isPrivate : Bool := false
  deriving Repr, DecidableEq

/-- Fixed relative paths probed in each repository
(`PORTFOLIO_CONFIG.expectedFiles`). -/
structure ExpectedFiles where
  readme : String
  config : String
  thumbnail : String
  deriving Repr, DecidableEq

/-- Configuration consumed by the manager (`PORTFOLIO_CONFIG`).
`repoPattern` carries the literal prefix of the source's regex
`/^portfolio(.+)$/i`; matching is performed by `regexCapture`. -/
structure SiteConfig where
  githubOwner : String
  repoPattern : String
  staticPortfolios : List Portfolio
  cacheDuration : Nat
  expectedFiles : ExpectedFiles

/-- Outcome of one provider request: `ok` carries the parsed payload,
`err` is a thrown/rejected request (transport error, non-2xx status, parse
failure). -/
inductive FetchResult (α : Type) where
  | ok (a : α)
  | err
  deriving Repr, DecidableEq

/-- Outcome of the `repos` (repository list) request: a JSON array of
descriptors, a successful response that is not an array, or a thrown
request. -/
inductive ReposResult where
  | ok (repos : List RepoDescriptor)
  | nonList
  | err
  deriving Repr

/-- Repository tree payload of the `tree` endpoint, modelled as its list
of paths (the aggregation logic never inspects it). -/
def TreeData := List String
deriving instance Repr, DecidableEq for TreeData

/-- Provider oracle for one cycle: the outcome of the repository-list
request and, keyed by the request arguments the source sends, of each
raw-file and tree request. -/
structure ProviderEnv where
  reposResult : ReposResult
  configResult : RepoDescriptor → FetchResult PortfolioConfig
  readmeResult : String → String → FetchResult String
  treeResult : String → String → FetchResult TreeData

/-- Provider call, as recorded in the operation call logs. -/
inductive ProviderCall where
  | listRepos
  | fetchFile (repo : String) (path : String) (branch : String)
  | fetchTree (repo : String) (branch : String)
  deriving Repr, DecidableEq

/-- Count of repository-list fetches in a call log. -/
def listReposCount (calls : List ProviderCall) : Nat :=
  (calls.filter fun c => match c with | .listRepos => true | _ => false).length

/-- In-memory cache record (`this.cache`): `data` and `timestamp` both
start as `null`. -/
structure Cache where
  data : Option (List Portfolio)
  timestamp : Option Nat
  deriving Repr, DecidableEq

/-- Cache state at construction (`constructor`). -/
def initialCache : Cache := { data := none, timestamp := none }

/-- Model of `fetchRepositories` (lines 51-59): the `repos` request result
coerced to a list, `[]` when the payload is not an array or the request
threw. -/
def fetchRepositories : ReposResult → List RepoDescriptor
  | .ok repos => repos
  | .nonList => []
  | .err => []

/-- Model of `filterPortfolioRepos` (lines 64-69). -/
def filterPortfolioRepos (cfg : SiteConfig) (repos : List RepoDescriptor) :
    List RepoDescriptor :=
  repos.filter fun repo => (regexCapture cfg.repoPattern repo.name).isSome

/-- Model of `extractPortfolioName` (lines 75-82): capture of the pattern
with its first character uppercased, or the raw name when there is no
match. -/
def extractPortfolioName (cfg : SiteConfig) (repoName : String) : String :=
  match regexCapture cfg.repoPattern repoName with
  | some cap => capitalizeFirst cap
  | none => repoName

/-- Model of `fetchPortfolioConfig` (lines 87-104): any fetch or parse
failure is swallowed and becomes `none`. -/
def fetchPortfolioConfig (env : ProviderEnv) (repo : RepoDescriptor) :
    Option PortfolioConfig :=
  match env.configResult repo with
  | .ok c => some c
  | .err => none

/-- Provider call performed by `fetchPortfolioConfig` for one repository. -/
def configCall (cfg : SiteConfig) (repo : RepoDescriptor) : ProviderCall :=
  .fetchFile repo.name cfg.expectedFiles.config (jsOrStr repo.default_branch "main")

/-- Model of `fetchReadme` (lines 109-122), called with an object carrying
`name` and `default_branch`: raw README text, or `none` on failure. -/
def fetchReadme (env : ProviderEnv) (name : String)
    (default_branch : Option String) : Option String :=
  match env.readmeResult name (jsOrStr default_branch "main") with
  | .ok s => some s
  | .err => none

/-- Model of `fetchRepoTree` (lines 127-139). -/
def fetchRepoTree (env : ProviderEnv) (name : String)
    (default_branch : Option String) : Option TreeData :=
  match env.treeResult name (jsOrStr default_branch "main") with
  | .ok t => some t
  | .err => none

/-- Well-known thumbnail URL pattern of `transformToPortfolio` line 178. -/
def defaultThumbnail (cfg : SiteConfig) (repo : RepoDescriptor) : String :=
  "https://raw.githubusercontent.com/" ++ cfg.githubOwner ++ "/" ++ repo.name
    ++ "/" ++ jsOrStr repo.default_branch "main" ++ "/"
    ++ cfg.expectedFiles.thumbnail

/-- Model of `transformToPortfolio` (lines 162-183): one entry per
descriptor, with the optional config overlay taking precedence through the
JS `||` idiom. -/
def transformToPortfolio (cfg : SiteConfig) (env : ProviderEnv)
    (repo : RepoDescriptor) : Portfolio :=
  let portfolioName := extractPortfolioName cfg repo.name
  let config := fetchPortfolioConfig env repo
  { name := jsOrStr (config.bind (·.name)) portfolioName
    slug := jsToLowerCase repo.name
    description := jsOrStr (config.bind (·.description))
      (jsOrStr repo.description "No description available")
    repoUrl := some repo.html_url
    homepage := repo.homepage
    stars := some repo.stargazers_count
    forks := some repo.forks_count
    updatedAt := some repo.updated_at
    language := repo.language
    topics := some ((repo.topics).getD [])
    defaultBranch := some (jsOrStr repo.default_branch "main")
    thumbnail := some (jsOrStr (config.bind (·.thumbnail))
      (defaultThumbnail cfg repo))
    isDynamic := true
    featured := (config.bind (·.featured)).getD false
    isPrivate := repo.«private» || false }

/-- Comparator of the sort at lines 213-217: featured entries first, then
locale-aware ascending order of display names. -/
def portfolioCompare (a b : Portfolio) : Int :=
  if a.featured && !b.featured then -1
  else if !a.featured && b.featured then 1
  else localeCompare a.name b.name

/-- Order induced by `portfolioCompare`, as consumed by
`Array.prototype.sort`. -/
def PortfolioLe (a b : Portfolio) : Prop := portfolioCompare a b ≤ 0

instance : DecidableRel PortfolioLe :=
  fun a b => inferInstanceAs (Decidable (portfolioCompare a b ≤ 0))

/-- Model of `allPortfolios.sort(...)`. ECMAScript requires `sort` with a
consistent comparator to produce a stable sorted order, which is unique;
it is realised here as an insertion sort. -/
def sortPortfolios (l : List Portfolio) : List Portfolio :=
  l.insertionSort PortfolioLe

/-- Truthiness test of the cache guard (line 191):
`this.cache.data && this.cache.timestamp && (now - this.cache.timestamp < this.config.cacheDuration)`.
An array is always truthy; the number `0` is falsy. -/
def cacheValid (cfg : SiteConfig) (c : Cache) (now : Nat) : Bool :=
  c.data.isSome &&
    (match c.timestamp with
     | none => false
     | some t => t != 0 && decide (now - t < cfg.cacheDuration))

/-- Result of one `getAllPortfolios` call: the returned sequence, the cache
afterward, and the provider calls performed. -/
structure GetAllResult where
  result : List Portfolio
  cache : Cache
  calls : List ProviderCall
  deriving Repr

/-- Model of `getAllPortfolios` (lines 188-226). The fast path returns the
cached sequence with no provider call; the refresh path performs one
repository-list fetch, one config fetch per matching repository, merges
with the static list, sorts, and replaces the cache record wholesale. -/
def getAllPortfolios (cfg : SiteConfig) (env : ProviderEnv) (c : Cache)
    (now : Nat) : GetAllResult :=
  if cacheValid cfg c now then
    { result := c.data.getD [], cache := c, calls := [] }
  else
    let repos := fetchRepositories env.reposResult
    let portfolioRepos := filterPortfolioRepos cfg repos
    let dynamicPortfolios := portfolioRepos.map (transformToPortfolio cfg env)
    let allPortfolios := sortPortfolios (cfg.staticPortfolios ++ dynamicPortfolios)
    { result := allPortfolios
      cache := { data := some allPortfolios, timestamp := some now }
      calls := ProviderCall.listRepos :: portfolioRepos.map (configCall cfg) }

/-- Model of `getPortfolio` (lines 231-234): first entry with the slug, or
`none` (`Array.prototype.find` returning `undefined`). -/
def getPortfolio (cfg : SiteConfig) (env : ProviderEnv) (c : Cache)
    (now : Nat) (slug : String) : Option Portfolio :=
  (getAllPortfolios cfg env c now).result.find? fun p => p.slug == slug

/-- Payload of `getPortfolioContent`: the resolved entry spread together
with the `readme` and `tree` fields. -/
structure PortfolioContent where
  entry : Portfolio
  readme : Option String
  tree : Option TreeData
  deriving Repr, DecidableEq

/-- Model of `getPortfolioContent` (lines 239-257): `none` when the slug
does not resolve or resolves to a non-dynamic entry; otherwise the entry
with README and tree fetched under the slug as repository name, each field
`none` on fetch failure. -/
def getPortfolioContent (cfg : SiteConfig) (env : ProviderEnv) (c : Cache)
    (now : Nat) (slug : String) : Option PortfolioContent :=
  match getPortfolio cfg env c now slug with
  | none => none
  | some portfolio =>
    if portfolio.isDynamic then
      some { entry := portfolio
             readme := fetchReadme env slug portfolio.defaultBranch
             tree := fetchRepoTree env slug portfolio.defaultBranch }
    else none

/-- Concrete `PORTFOLIO_CONFIG` of `src/portfolio/config.js`. -/
def PORTFOLIO_CONFIG : SiteConfig :=
  { githubOwner := "Trizly-xyz"
    repoPattern := "portfolio"
    staticPortfolios :=
      [ { name := "Bloxy", slug := "bloxy", path := some "/portfolio/bloxy/"
          description := "Roblox community management bot", featured := true }
      , { name := "Mason", slug := "mason", path := some "/portfolio/mason/"
          description := "Advanced Discord bot", featured := true }
      , { name := "Trizl", slug := "trizl", path := some "/portfolio/trizl/"
          description := "Next-gen community tools", featured := true } ]
    cacheDuration := 5 * 60 * 1000
    expectedFiles :=
      { readme := "README.md", config := "portfolio.json"
        thumbnail := "thumbnail.png" } }

/-- Semantics of `Promise.all` over already-settled outcomes: the first
rejection (in list order) rejects the whole batch, otherwise the list of
fulfilled values. Used to examine the join at lines 202-204. -/
def promiseAll {ε α : Type} : List (Except ε α) → Except ε (List α)
  | [] => .ok []
  | .error e :: _ => .error e
  | .ok a :: rest =>
    match promiseAll rest with
    | .error e => .error e
    | .ok as => .ok (a :: as)

/-- Refresh pipeline of `getAllPortfolios` (lines 198-217) with the
per-repository transform outcome left abstract, exactly as the source
composes it: `Promise.all` over the mapped transforms, then merge with the
static list and sort. The source's own transform is total, so it always
supplies `Except.ok` outcomes. -/
def refreshWithOutcomes (cfg : SiteConfig) (rr : ReposResult)
    (tr : RepoDescriptor → Except String Portfolio) :
    Except String (List Portfolio) :=
  match promiseAll ((filterPortfolioRepos cfg (fetchRepositories rr)).map tr) with
  | .error e => .error e
  | .ok dynamicPortfolios =>
    .ok (sortPortfolios (cfg.staticPortfolios ++ dynamicPortfolios))

/-- Repository descriptor with the fields the scenarios do not vary. -/
def mkRepo (name : String) : RepoDescriptor :=
  { name := name, description := none
    html_url := "https://github.com/Trizly-xyz/" ++ name
    homepage := none, stargazers_count := 12, forks_count := 3
    updated_at := "2024-01-01T00:00:00Z", language := some "JavaScript"
    topics := none, default_branch := some "main", «private» := false }

/-- Scenario repository whose derived display name is `Apple`. -/
def sampleRepoApple : RepoDescriptor := mkRepo "portfolioApple"

/-- Scenario repository whose derived display name is `Bear`. -/
def sampleRepoBear : RepoDescriptor := mkRepo "portfolioBear"

/-- Static entry of the merge/sort scenario. -/
def trizlEntry : Portfolio :=
  { name := "Trizl", slug := "trizl", path := some "/portfolio/trizl/"
    description := "Next-gen community tools", featured := true }

/-- Configuration of the scenarios: one static entry, the source's pattern
and TTL. -/
def sampleCfg : SiteConfig :=
  { githubOwner := "Trizly-xyz"
    repoPattern := "portfolio"
    staticPortfolios := [trizlEntry]
    cacheDuration := 5 * 60 * 1000
    expectedFiles := PORTFOLIO_CONFIG.expectedFiles }

/-- Per-repository overlay that only sets the featured flag. -/
def featuredOverlay : PortfolioConfig :=
  { name := none, description := none, thumbnail := none
    featured := some true }

/-- Provider oracle of the scenarios: the list request yields the Apple and
Bear repositories, the Bear overlay marks it featured, the Apple overlay
fetch fails, and every file/tree request fails. -/
def sampleEnv : ProviderEnv :=
  { reposResult := .ok [sampleRepoApple, sampleRepoBear]
    configResult := fun r =>
      if r.name == "portfolioBear" then .ok featuredOverlay else .err
    readmeResult := fun _ _ => .err
    treeResult := fun _ _ => .err }

/-- Provider oracle whose every request fails. -/
def failEnv : ProviderEnv :=
  { reposResult := .err
    configResult := fun _ => .err
    readmeResult := fun _ _ => .err
    treeResult := fun _ _ => .err }

/-- Provider oracle whose file and tree requests succeed, for the content
scenarios. -/
def contentEnv : ProviderEnv :=
  { reposResult := .ok [sampleRepoApple, sampleRepoBear]
    configResult := fun _ => .err
    readmeResult := fun _ _ => .ok "readme text"
    treeResult := fun _ _ => .ok ["src", "README.md"] }

/-- Dynamic entry the sample scenario derives for the Apple repository. -/
def sampleEntryApple : Portfolio :=
  transformToPortfolio sampleCfg sampleEnv sampleRepoApple

/-- Hypothetical per-repository transform outcomes in which exactly the
Bear repository's transform fails outright. -/
def sampleOutcomes : RepoDescriptor → Except String Portfolio :=
  fun r =>
    if r.name == "portfolioBear" then .error "network failure"
    else .ok sampleEntryApple

/-- Characters with equal code points are equal. -/
theorem char_toNat_inj {a b : Char} (h : a.toNat = b.toNat) : a = b := by
  have ha := Char.ofNat_toNat a
  have hb := Char.ofNat_toNat b
  rw [← ha, ← hb, h]

/-- Code point of `Char.ofNat` at a valid scalar value. -/
theorem toNat_ofNat_valid (n : Nat) (h : n.isValidChar) :
    (Char.ofNat n).toNat = n := by
  simp [Char.ofNat, h, Char.toNat, Char.ofNatAux, UInt32.toNat,
    BitVec.toNat_ofNatLt]

/-- Lowering an ASCII uppercase letter changes it. -/
theorem toLower_ne_of_upper {ch : Char} (h1 : 65 ≤ ch.toNat)
    (h2 : ch.toNat ≤ 90) : Char.toLower ch ≠ ch := by
  intro heq
  have hlow : Char.toLower ch = Char.ofNat (ch.toNat + 32) := by
    simp [Char.toLower, h1, h2]
  have hv : (ch.toNat + 32).isValidChar := Or.inl (by omega)
  have h3 : (Char.toLower ch).toNat = ch.toNat + 32 := by
    rw [hlow, toNat_ofNat_valid _ hv]
  rw [heq] at h3
  omega

/-- The ordinal comparison returns `eq` exactly on equal lists. -/
theorem charListCompare_eq_iff (s : List Char) :
    ∀ t, charListCompare s t = .eq ↔ s = t := by
  induction s with
  | nil => intro t; cases t <;> simp [charListCompare]
  | cons a as ih =>
    intro t
    cases t with
    | nil => simp [charListCompare]
    | cons b bs =>
      simp only [charListCompare]
      rcases Nat.lt_trichotomy a.toNat b.toNat with h | h | h
      · have hne : a ≠ b := fun he => absurd (he ▸ h) (lt_irrefl _)
        simp [h, hne]
      · have hab : a = b := char_toNat_inj h
        simp [h, lt_irrefl, hab, ih bs]
      · have hne : a ≠ b := fun he => absurd (he ▸ h) (lt_irrefl _)
        simp [h, Nat.lt_asymm h, hne]

/-- The ordinal comparison flips under argument swap. -/
theorem charListCompare_gt_iff (s : List Char) :
    ∀ t, charListCompare s t = .gt ↔ charListCompare t s = .lt := by
  induction s with
  | nil => intro t; cases t <;> simp [charListCompare]
  | cons a as ih =>
    intro t
    cases t with
    | nil => simp [charListCompare]
    | cons b bs =>
      simp only [charListCompare]
      rcases Nat.lt_trichotomy a.toNat b.toNat with h | h | h
      · simp [h, Nat.lt_asymm h]
      · simp [h, lt_irrefl, ih bs]
      · simp [h, Nat.lt_asymm h]

/-- The ordinal comparison is transitive in its `lt` outcome. -/
theorem charListCompare_lt_trans (s : List Char) :
    ∀ t u, charListCompare s t = .lt → charListCompare t u = .lt →
      charListCompare s u = .lt := by
  induction s with
  | nil =>
    intro t u h1 h2
    cases t with
    | nil => simp [charListCompare] at h1
    | cons b bs =>
      cases u with
      | nil => simp [charListCompare] at h2
      | cons c cs => simp [charListCompare]
  | cons a as ih =>
    intro t u h1 h2
    cases t with
    | nil => simp [charListCompare] at h1
    | cons b bs =>
      cases u with
      | nil => simp [charListCompare] at h2
      | cons c cs =>
        simp only [charListCompare] at h1 h2 ⊢
        rcases Nat.lt_trichotomy a.toNat b.toNat with hab | hab | hab
        · rcases Nat.lt_trichotomy b.toNat c.toNat with hbc | hbc | hbc
          · simp [Nat.lt_trans hab hbc]
          · simp [hbc ▸ hab]
          · simp [Nat.lt_asymm hbc, hbc] at h2
        · rcases Nat.lt_trichotomy b.toNat c.toNat with hbc | hbc | hbc
          · simp [hab ▸ hbc]
          · have hac : ¬ a.toNat < c.toNat := by omega
            have hca : ¬ c.toNat < a.toNat := by omega
            simp [hab, lt_irrefl] at h1
            simp [hbc, lt_irrefl] at h2
            simp [hac, hca]
            exact ih bs cs h1 h2
          · simp [Nat.lt_asymm hbc, hbc] at h2
        · simp [Nat.lt_asymm hab, hab] at h1

/-- Nonpositive `localeCompare` outcomes, characterised by the two
underlying ordinal comparisons. -/
theorem localeCompare_nonpos_iff (s t : String) :
    localeCompare s t ≤ 0 ↔
      charListCompare (toLowerList s.data) (toLowerList t.data) = .lt ∨
        (toLowerList s.data = toLowerList t.data ∧
          charListCompare s.data t.data ≠ .lt) := by
  unfold localeCompare
  cases hlow : charListCompare (toLowerList s.data) (toLowerList t.data) with
  | lt => simp
  | gt =>
    have : toLowerList s.data ≠ toLowerList t.data := by
      intro he
      rw [he, (charListCompare_eq_iff _ _).mpr rfl] at hlow
      exact Ordering.noConfusion hlow
    simp [this]
  | eq =>
    have heq : toLowerList s.data = toLowerList t.data :=
      (charListCompare_eq_iff _ _).mp hlow
    cases hraw : charListCompare t.data s.data with
    | lt =>
      have : charListCompare s.data t.data = .gt :=
        (charListCompare_gt_iff _ _).mpr hraw
      simp [heq, this]
    | eq =>
      have : s.data = t.data := (charListCompare_eq_iff _ _).mp hraw |>.symm
      simp [heq, this, (charListCompare_eq_iff _ _).mpr rfl]
    | gt =>
      have : charListCompare s.data t.data = .lt :=
        (charListCompare_gt_iff _ _).mp hraw
      simp [heq, this]

/-- The locale comparison is total. -/
theorem localeCompare_le_total (s t : String) :
    localeCompare s t ≤ 0 ∨ localeCompare t s ≤ 0 := by
  rw [localeCompare_nonpos_iff, localeCompare_nonpos_iff]
  cases hlow : charListCompare (toLowerList s.data) (toLowerList t.data) with
  | lt => exact Or.inl (Or.inl rfl)
  | gt => exact Or.inr (Or.inl ((charListCompare_gt_iff _ _).mp hlow))
  | eq =>
    have heq : toLowerList s.data = toLowerList t.data :=
      (charListCompare_eq_iff _ _).mp hlow
    cases hraw : charListCompare s.data t.data with
    | lt =>
      refine Or.inr (Or.inr ⟨heq.symm, ?_⟩)
      intro hc
      have := (charListCompare_gt_iff t.data s.data).mpr hraw
      rw [this] at hc
      exact Ordering.noConfusion hc
    | eq => exact Or.inl (Or.inr ⟨heq, by simp [hraw]⟩)
    | gt => exact Or.inl (Or.inr ⟨heq, by simp [hraw]⟩)

/-- Nonpositive locale comparisons compose transitively. -/
theorem localeCompare_le_trans {s t u : String}
    (h1 : localeCompare s t ≤ 0) (h2 : localeCompare t u ≤ 0) :
    localeCompare s u ≤ 0 := by
  rw [localeCompare_nonpos_iff] at h1 h2 ⊢
  rcases h1 with h1 | ⟨h1e, h1r⟩
  · rcases h2 with h2 | ⟨h2e, _⟩
    · exact Or.inl (charListCompare_lt_trans _ _ _ h1 h2)
    · exact Or.inl (h2e ▸ h1)
  · rcases h2 with h2 | ⟨h2e, h2r⟩
    · exact Or.inl (h1e ▸ h2)
    · refine Or.inr ⟨h1e.trans h2e, ?_⟩
      intro hsu
      rcases hst : charListCompare s.data t.data with _ | _ | _
      · exact h1r hst
      · have : s.data = t.data := (charListCompare_eq_iff _ _).mp hst
        exact h2r (this ▸ hsu)
      · have hts : charListCompare t.data s.data = .lt :=
          (charListCompare_gt_iff _ _).mp hst
        exact h2r (charListCompare_lt_trans _ _ _ hts hsu)

/-- Featured-then-name order unfolded to its two components. -/
theorem portfolioLe_iff (a b : Portfolio) :
    PortfolioLe a b ↔
      (a.featured = true ∧ b.featured = false) ∨
        (a.featured = b.featured ∧ localeCompare a.name b.name ≤ 0) := by
  unfold PortfolioLe portfolioCompare
  cases ha : a.featured <;> cases hb : b.featured <;> simp

instance : IsTotal Portfolio PortfolioLe :=
  ⟨by
    intro a b
    rw [portfolioLe_iff, portfolioLe_iff]
    cases ha : a.featured <;> cases hb : b.featured <;>
      simp <;> exact localeCompare_le_total a.name b.name⟩

instance : IsTrans Portfolio PortfolioLe :=
  ⟨by
    intro a b c hab hbc
    rw [portfolioLe_iff] at hab hbc ⊢
    rcases hab with ⟨ha, hb⟩ | ⟨hab, hlab⟩
    · rcases hbc with ⟨hb', _⟩ | ⟨hbc, _⟩
      · rw [hb] at hb'; exact Bool.noConfusion hb'
      · exact Or.inl ⟨ha, hbc ▸ hb⟩
    · rcases hbc with ⟨hb', hc⟩ | ⟨hbc, hlbc⟩
      · exact Or.inl ⟨hab ▸ hb', hc⟩
      · exact Or.inr ⟨hab.trans hbc, localeCompare_le_trans hlab hlbc⟩⟩

/-- The sort of the merged list is ordered by the comparator. -/
theorem sortPortfolios_sorted (l : List Portfolio) :
    (sortPortfolios l).Pairwise PortfolioLe :=
  List.sorted_insertionSort PortfolioLe l

/-- The sort of the merged list is a permutation of it. -/
theorem sortPortfolios_perm (l : List Portfolio) :
    (sortPortfolios l).Perm l :=
  List.perm_insertionSort PortfolioLe l

/-- Spelled-out refresh path of `getAllPortfolios` when the cache guard
fails. -/
theorem getAllPortfolios_refresh (cfg : SiteConfig) (env : ProviderEnv)
    (c : Cache) (now : Nat) (h : cacheValid cfg c now = false) :
    getAllPortfolios cfg env c now =
      { result := sortPortfolios (cfg.staticPortfolios ++
          (filterPortfolioRepos cfg (fetchRepositories env.reposResult)).map
            (transformToPortfolio cfg env))
        cache := { data := some (sortPortfolios (cfg.staticPortfolios ++
          (filterPortfolioRepos cfg (fetchRepositories env.reposResult)).map
            (transformToPortfolio cfg env))), timestamp := some now }
        calls := ProviderCall.listRepos ::
          (filterPortfolioRepos cfg (fetchRepositories env.reposResult)).map
            (configCall cfg) } := by
  simp [getAllPortfolios, h]

/-- Spelled-out fast path of `getAllPortfolios` when the cache guard
holds. -/
theorem getAllPortfolios_hit (cfg : SiteConfig) (env : ProviderEnv)
    (c : Cache) (now : Nat) (h : cacheValid cfg c now = true) :
    getAllPortfolios cfg env c now =
      { result := c.data.getD [], cache := c, calls := [] } := by
  simp [getAllPortfolios, h]

/-- Cache guard outcome on a populated record whose TTL has elapsed. -/
theorem cacheValid_false_of_expired (cfg : SiteConfig)
    (l : List Portfolio) (t now : Nat) (h : cfg.cacheDuration ≤ now - t) :
    cacheValid cfg { data := some l, timestamp := some t } now = false := by
  simp [cacheValid, Nat.not_lt.mpr h]

/-- Cache guard outcome on a populated record within its TTL, at a nonzero
population time. -/
theorem cacheValid_true_of_fresh (cfg : SiteConfig)
    (l : List Portfolio) (t now : Nat) (ht : t ≠ 0)
    (h : now - t < cfg.cacheDuration) :
    cacheValid cfg { data := some l, timestamp := some t } now = true := by
  simp [cacheValid, ht, h]

/-- Config-file fetches are not repository-list fetches: a refresh call
log counts exactly one list fetch. -/
theorem listReposCount_refresh (cfg : SiteConfig)
    (l : List RepoDescriptor) :
    listReposCount (ProviderCall.listRepos :: l.map (configCall cfg)) = 1 := by
  simp only [listReposCount, List.filter_cons, List.filter_map]
  have : ∀ r, (match configCall cfg r with
      | ProviderCall.listRepos => true
      | _ => false) = false := by
    intro r; simp [configCall]
  simp [Function.comp_def, this]

/-- List-fetch counts add up over concatenated call logs. -/
theorem listReposCount_append (c1 c2 : List ProviderCall) :
    listReposCount (c1 ++ c2) = listReposCount c1 + listReposCount c2 := by
  simp [listReposCount, List.filter_append]

/-- `Promise.all` over fulfilled promises fulfills with the mapped list. -/
theorem promiseAll_map_ok (f : RepoDescriptor → Portfolio)
    (l : List RepoDescriptor) :
    promiseAll (l.map fun r => (Except.ok (f r) : Except String Portfolio))
      = .ok (l.map f) := by
  induction l with
  | nil => rfl
  | cons r rest ih => simp [promiseAll, ih]

/-- C1 (counterexample): a cache populated by a refresh at time 0 is not
honoured, because the source's truthiness guard treats the timestamp `0`
as unset. The second call within the TTL window performs a full refresh,
so the two calls together perform two repository-list fetches, not one. -/
theorem c1_counterexample :
    (0 : Nat) - 0 < sampleCfg.cacheDuration ∧
    (getAllPortfolios sampleCfg sampleEnv initialCache 0).cache =
      { data := some (getAllPortfolios sampleCfg sampleEnv initialCache 0).result
        timestamp := some 0 } ∧
    (getAllPortfolios sampleCfg sampleEnv
        (getAllPortfolios sampleCfg sampleEnv initialCache 0).cache 0).calls ≠ [] ∧
    listReposCount ((getAllPortfolios sampleCfg sampleEnv initialCache 0).calls ++
      (getAllPortfolios sampleCfg sampleEnv
        (getAllPortfolios sampleCfg sampleEnv initialCache 0).cache 0).calls) = 2 := by
  decide

/-- C1 (amended): for a cache populated by a refresh at a nonzero time
`now`, a second call at any `t'` with `t' - now < cacheDuration` returns
the very same sequence, leaves the cache untouched, and performs no
provider call at all, so the two calls together perform exactly one
repository-list fetch. -/
theorem c1_cache_idempotent_within_ttl (cfg : SiteConfig)
    (env env' : ProviderEnv) (c : Cache) (now t' : Nat)
    (hmiss : cacheValid cfg c now = false) (hpos : 0 < now)
    (httl : t' - now < cfg.cacheDuration) :
    (getAllPortfolios cfg env' (getAllPortfolios cfg env c now).cache t').result
      = (getAllPortfolios cfg env c now).result ∧
    (getAllPortfolios cfg env' (getAllPortfolios cfg env c now).cache t').cache
      = (getAllPortfolios cfg env c now).cache ∧
    (getAllPortfolios cfg env' (getAllPortfolios cfg env c now).cache t').calls
      = [] ∧
    listReposCount ((getAllPortfolios cfg env c now).calls ++
      (getAllPortfolios cfg env' (getAllPortfolios cfg env c now).cache t').calls)
      = 1 := by
  have hnz : now ≠ 0 := Nat.pos_iff_ne_zero.mp hpos
  rw [getAllPortfolios_refresh cfg env c now hmiss]
  dsimp only
  rw [getAllPortfolios_hit cfg env' _ t'
    (cacheValid_true_of_fresh cfg _ now t' hnz httl)]
  refine ⟨rfl, rfl, rfl, ?_⟩
  rw [List.append_nil, listReposCount_refresh]

/-- C1 witness: concrete population at time 1 followed by a read at
time 2. -/
theorem c1_witness :
    (getAllPortfolios sampleCfg sampleEnv
        (getAllPortfolios sampleCfg sampleEnv initialCache 1).cache 2).calls
      = [] :=
  (c1_cache_idempotent_within_ttl sampleCfg sampleEnv sampleEnv
    initialCache 1 2 (by decide) (by decide) (by decide)).2.2.1

/-- C2: on a populated cache with timestamp `t`, a call at `now` with
`now - t ≥ cacheDuration` performs a refresh: the returned sequence is the
freshly fetched, transformed, merged and sorted one, the cache record is
replaced wholesale with that sequence and timestamp `now`, and exactly one
repository-list fetch is performed. -/
theorem c2_refresh_after_expiry (cfg : SiteConfig) (env : ProviderEnv)
    (l : List Portfolio) (t now : Nat)
    (h : cfg.cacheDuration ≤ now - t) :
    (getAllPortfolios cfg env { data := some l, timestamp := some t } now).result
        = sortPortfolios (cfg.staticPortfolios ++
            (filterPortfolioRepos cfg (fetchRepositories env.reposResult)).map
              (transformToPortfolio cfg env)) ∧
    (getAllPortfolios cfg env { data := some l, timestamp := some t } now).cache
        = { data := some (getAllPortfolios cfg env
              { data := some l, timestamp := some t } now).result
            timestamp := some now } ∧
    listReposCount
      (getAllPortfolios cfg env { data := some l, timestamp := some t } now).calls
        = 1 := by
  rw [getAllPortfolios_refresh cfg env _ now
    (cacheValid_false_of_expired cfg l t now h)]
  exact ⟨rfl, rfl, listReposCount_refresh _ _⟩

/-- C2 witness: a cache populated at time 1 read again at time 300001,
exactly one TTL later. -/
theorem c2_witness :
    (getAllPortfolios sampleCfg sampleEnv
        { data := some [], timestamp := some 1 } 300001).cache
      = { data := some (getAllPortfolios sampleCfg sampleEnv
            { data := some [], timestamp := some 1 } 300001).result
          timestamp := some 300001 } :=
  (c2_refresh_after_expiry sampleCfg sampleEnv [] 1 300001 (by decide)).2.1

/-- C3: every sequence produced by a refresh is ordered featured-first and,
within equal featuredness, ascending by display name under the locale
comparison; and the documented example — static `Trizl` (featured) merged
with dynamic `Apple` (not featured) and `Bear` (featured) — comes out as
`Bear, Trizl, Apple`. -/
theorem c3_sorted_featured_then_name (cfg : SiteConfig) (env : ProviderEnv)
    (c : Cache) (now : Nat) (hmiss : cacheValid cfg c now = false) :
    (getAllPortfolios cfg env c now).result.Pairwise
      (fun a b => ¬(a.featured = false ∧ b.featured = true) ∧
        (a.featured = b.featured → localeCompare a.name b.name ≤ 0)) ∧
    (getAllPortfolios sampleCfg sampleEnv initialCache 1).result.map
      (fun p => p.name) = ["Bear", "Trizl", "Apple"] := by
  constructor
  · rw [getAllPortfolios_refresh cfg env c now hmiss]
    dsimp only
    refine List.Pairwise.imp ?_ (sortPortfolios_sorted _)
    intro a b hle
    rw [portfolioLe_iff] at hle
    rcases hle with ⟨ha, hb⟩ | ⟨hab, hl⟩
    · refine ⟨?_, ?_⟩
      · rintro ⟨h1, _⟩
        rw [ha] at h1
        exact Bool.noConfusion h1
      · intro he
        rw [ha, hb] at he
        exact Bool.noConfusion he
    · refine ⟨?_, fun _ => hl⟩
      rintro ⟨h1, h2⟩
      rw [h1, h2] at hab
      exact Bool.noConfusion hab
  · decide

/-- C3 witness: the concrete merge/sort scenario at time 1. -/
theorem c3_witness :
    (getAllPortfolios sampleCfg sampleEnv initialCache 1).result.map
      (fun p => p.name) = ["Bear", "Trizl", "Apple"] :=
  (c3_sorted_featured_then_name sampleCfg sampleEnv initialCache 1
    (by decide)).2

/-- C4: when the per-repository config fetch (or parse) fails, the
transformer still yields exactly one entry built from descriptor-derived
defaults: extracted display name, lowercased slug, description falling
back to the descriptor's or the fixed placeholder, the well-known
thumbnail URL, and `featured = false`. No failure escapes and the entry is
not omitted. -/
theorem c4_transform_degrades_to_defaults (cfg : SiteConfig)
    (env : ProviderEnv) (repo : RepoDescriptor)
    (hfail : env.configResult repo = .err) :
    transformToPortfolio cfg env repo =
      { name := extractPortfolioName cfg repo.name
        slug := jsToLowerCase repo.name
        path := none
        description := jsOrStr repo.description "No description available"
        repoUrl := some repo.html_url
        homepage := repo.homepage
        stars := some repo.stargazers_count
        forks := some repo.forks_count
        updatedAt := some repo.updated_at
        language := repo.language
        topics := some (repo.topics.getD [])
        defaultBranch := some (jsOrStr repo.default_branch "main")
        thumbnail := some (defaultThumbnail cfg repo)
        isDynamic := true
        featured := false
        isPrivate := repo.«private» } := by
  simp [transformToPortfolio, fetchPortfolioConfig, hfail, jsOrStr]

/-- C4 witness: the Apple repository, whose overlay fetch fails in the
sample oracle. -/
theorem c4_witness :
    transformToPortfolio sampleCfg sampleEnv sampleRepoApple =
      { name := extractPortfolioName sampleCfg sampleRepoApple.name
        slug := jsToLowerCase sampleRepoApple.name
        path := none
        description := jsOrStr sampleRepoApple.description
          "No description available"
        repoUrl := some sampleRepoApple.html_url
        homepage := sampleRepoApple.homepage
        stars := some sampleRepoApple.stargazers_count
        forks := some sampleRepoApple.forks_count
        updatedAt := some sampleRepoApple.updated_at
        language := sampleRepoApple.language
        topics := some (sampleRepoApple.topics.getD [])
        defaultBranch := some (jsOrStr sampleRepoApple.default_branch "main")
        thumbnail := some (defaultThumbnail sampleCfg sampleRepoApple)
        isDynamic := true
        featured := false
        isPrivate := sampleRepoApple.«private» } :=
  c4_transform_degrades_to_defaults sampleCfg sampleEnv sampleRepoApple
    (by decide)

/-- C5 (counterexample): hypothetical outcomes in which exactly one
repository's transform fails outright while the other succeeds. The
`Promise.all` join used by the source rejects the whole batch instead of
dropping that single entry, so no sequence containing the static and
surviving entries is returned. -/
theorem c5_counterexample :
    sampleOutcomes sampleRepoApple = .ok sampleEntryApple ∧
    sampleOutcomes sampleRepoBear = .error "network failure" ∧
    refreshWithOutcomes sampleCfg (.ok [sampleRepoApple, sampleRepoBear])
        sampleOutcomes = .error "network failure" :=
  ⟨rfl, rfl, rfl⟩

/-- C5 (amended): the source's transform cannot fail outright — every
fetch/parse failure is degraded inside `fetchPortfolioConfig` — so the
`Promise.all` join always fulfills and no entry is ever dropped: a refresh
returns the static entries together with exactly one transformed entry per
matching repository. Had a transform been able to reject, the join would
have aborted the whole batch (see the counterexample), not dropped one
entry. -/
theorem c5_no_entry_dropped (cfg : SiteConfig) (env : ProviderEnv)
    (c : Cache) (now : Nat) (hmiss : cacheValid cfg c now = false) :
    refreshWithOutcomes cfg env.reposResult
        (fun r => .ok (transformToPortfolio cfg env r))
      = .ok (getAllPortfolios cfg env c now).result ∧
    (getAllPortfolios cfg env c now).result.Perm
      (cfg.staticPortfolios ++
        (filterPortfolioRepos cfg (fetchRepositories env.reposResult)).map
          (transformToPortfolio cfg env)) := by
  rw [getAllPortfolios_refresh cfg env c now hmiss]
  dsimp only
  constructor
  · unfold refreshWithOutcomes
    rw [promiseAll_map_ok]
  · exact sortPortfolios_perm _

/-- C5 witness: the sample refresh at time 1. -/
theorem c5_witness :
    refreshWithOutcomes sampleCfg sampleEnv.reposResult
        (fun r => .ok (transformToPortfolio sampleCfg sampleEnv r))
      = .ok (getAllPortfolios sampleCfg sampleEnv initialCache 1).result :=
  (c5_no_entry_dropped sampleCfg sampleEnv initialCache 1 (by decide)).1

/-- C6: when the repository-list request fails (throws or yields a
non-array payload), the refresh treats the list as empty: the call
returns exactly the static entries (sorted) and caches them, and no
failure escapes. -/
theorem c6_provider_failure_degrades (cfg : SiteConfig) (env : ProviderEnv)
    (c : Cache) (now : Nat) (hmiss : cacheValid cfg c now = false)
    (hfail : env.reposResult = .err ∨ env.reposResult = .nonList) :
    (getAllPortfolios cfg env c now).result
        = sortPortfolios cfg.staticPortfolios ∧
    (getAllPortfolios cfg env c now).result.Perm cfg.staticPortfolios ∧
    (getAllPortfolios cfg env c now).cache
        = { data := some (sortPortfolios cfg.staticPortfolios)
            timestamp := some now } := by
  have hempty : fetchRepositories env.reposResult = [] := by
    rcases hfail with h | h <;> rw [h] <;> rfl
  rw [getAllPortfolios_refresh cfg env c now hmiss]
  dsimp only
  rw [hempty]
  simp only [filterPortfolioRepos, List.filter_nil, List.map_nil,
    List.append_nil]
  exact ⟨trivial, sortPortfolios_perm _, trivial⟩

/-- C6 witness: an all-failing provider oracle at time 1 on an empty
cache. -/
theorem c6_witness :
    (getAllPortfolios sampleCfg failEnv initialCache 1).result
      = sortPortfolios sampleCfg.staticPortfolios :=
  (c6_provider_failure_degrades sampleCfg failEnv initialCache 1
    (by decide) (Or.inl rfl)).1

/-- Successful match of the source pattern `/^portfolio(.+)$/i`: a
case-insensitive `portfolio` prefix followed by at least one
non-line-terminator character reaching the end of the name. -/
theorem regexCapture_portfolio_some (name : String)
    (h1 : toLowerList (name.data.take 9) = ("portfolio" : String).data)
    (h2 : name.data.drop 9 ≠ [])
    (h3 : (name.data.drop 9).all dotMatches = true) :
    regexCapture "portfolio" name = some (String.mk (name.data.drop 9)) := by
  have hlen : ("portfolio" : String).data.length = 9 := by decide
  have hlow : toLowerList ("portfolio" : String).data
      = ("portfolio" : String).data := by decide
  have hne : (name.data.drop 9).isEmpty = false := by
    cases hd : name.data.drop 9 with
    | nil => exact absurd hd h2
    | cons x xs => rfl
  unfold regexCapture
  rw [hlen, hlow]
  simp [h1, h3, hne]

/-- Failed match of the source pattern: any of the three conditions
violated. -/
theorem regexCapture_portfolio_none (name : String)
    (h : toLowerList (name.data.take 9) ≠ ("portfolio" : String).data ∨
      name.data.drop 9 = [] ∨
      (name.data.drop 9).all dotMatches = false) :
    regexCapture "portfolio" name = none := by
  have hlen : ("portfolio" : String).data.length = 9 := by decide
  have hlow : toLowerList ("portfolio" : String).data
      = ("portfolio" : String).data := by decide
  unfold regexCapture
  rw [hlen, hlow]
  rcases h with h | h | h
  · simp [h]
  · simp [h]
  · simp [h]

/-- C7: the extractor is a pure function of the repository name: when the
name matches `/^portfolio(.+)$/i` it returns the capture with its first
character uppercased, otherwise it returns the name unchanged; in
particular `portfolioBloxy ↦ Bloxy` and `random-repo ↦ random-repo`. -/
theorem c7_extract_contract (name : String) :
    (toLowerList (name.data.take 9) = ("portfolio" : String).data →
      name.data.drop 9 ≠ [] →
      (name.data.drop 9).all dotMatches = true →
      extractPortfolioName PORTFOLIO_CONFIG name
        = capitalizeFirst (String.mk (name.data.drop 9))) ∧
    ((toLowerList (name.data.take 9) ≠ ("portfolio" : String).data ∨
      name.data.drop 9 = [] ∨
      (name.data.drop 9).all dotMatches = false) →
      extractPortfolioName PORTFOLIO_CONFIG name = name) ∧
    extractPortfolioName PORTFOLIO_CONFIG "portfolioBloxy" = "Bloxy" ∧
    extractPortfolioName PORTFOLIO_CONFIG "random-repo" = "random-repo" := by
  have hpat : PORTFOLIO_CONFIG.repoPattern = "portfolio" := rfl
  refine ⟨?_, ?_, by decide, by decide⟩
  · intro h1 h2 h3
    unfold extractPortfolioName
    rw [hpat, regexCapture_portfolio_some name h1 h2 h3]
  · intro h
    unfold extractPortfolioName
    rw [hpat, regexCapture_portfolio_none name h]

/-- C7 witness: the documented example name. -/
theorem c7_witness :
    extractPortfolioName PORTFOLIO_CONFIG "portfolioBloxy"
      = capitalizeFirst (String.mk (("portfolioBloxy" : String).data.drop 9)) :=
  (c7_extract_contract "portfolioBloxy").1 (by decide) (by decide) (by decide)

/-- C8: content resolution — an unresolved slug or a static (non-dynamic)
entry yields "not found" even though the slug may exist in
`getAllPortfolios()`; a dynamic entry yields the entry merged with README
and tree, either of which degrades to `none` on fetch failure; concretely,
on the real configuration the static slug `trizl` resolves in the
aggregate yet yields no content. -/
theorem c8_content_resolution (cfg : SiteConfig) (env : ProviderEnv)
    (c : Cache) (now : Nat) (slug : String) :
    (getPortfolio cfg env c now slug = none →
      getPortfolioContent cfg env c now slug = none) ∧
    (∀ p, getPortfolio cfg env c now slug = some p → p.isDynamic = false →
      getPortfolioContent cfg env c now slug = none) ∧
    (∀ p, getPortfolio cfg env c now slug = some p → p.isDynamic = true →
      getPortfolioContent cfg env c now slug =
        some { entry := p
               readme := fetchReadme env slug p.defaultBranch
               tree := fetchRepoTree env slug p.defaultBranch }) ∧
    (∀ nm db, env.readmeResult nm (jsOrStr db "main") = .err →
      fetchReadme env nm db = none) ∧
    (∀ nm db, env.treeResult nm (jsOrStr db "main") = .err →
      fetchRepoTree env nm db = none) ∧
    (getPortfolio PORTFOLIO_CONFIG failEnv initialCache 1 "trizl").isSome
        = true ∧
    getPortfolioContent PORTFOLIO_CONFIG failEnv initialCache 1 "trizl"
        = none := by
  refine ⟨?_, ?_, ?_, ?_, ?_, by decide, by decide⟩
  · intro h
    unfold getPortfolioContent
    rw [h]
  · intro p hp hd
    unfold getPortfolioContent
    rw [hp]
    simp [hd]
  · intro p hp hd
    unfold getPortfolioContent
    rw [hp]
    simp [hd]
  · intro nm db h
    unfold fetchReadme
    rw [h]
  · intro nm db h
    unfold fetchRepoTree
    rw [h]

/-- C8 witness: a dynamic slug resolved against the content oracle. -/
theorem c8_witness :
    getPortfolioContent sampleCfg contentEnv initialCache 1 "portfolioapple"
      = some { entry := transformToPortfolio sampleCfg contentEnv sampleRepoApple
               readme := fetchReadme contentEnv "portfolioapple"
                 (transformToPortfolio sampleCfg contentEnv
                   sampleRepoApple).defaultBranch
               tree := fetchRepoTree contentEnv "portfolioapple"
                 (transformToPortfolio sampleCfg contentEnv
                   sampleRepoApple).defaultBranch } :=
  (c8_content_resolution sampleCfg contentEnv initialCache 1
    "portfolioapple").2.2.1
    (transformToPortfolio sampleCfg contentEnv sampleRepoApple)
    (by decide) (by decide)

/-- C9: slug lookup — `getPortfolio` is the first-match linear scan of the
`getAllPortfolios()` sequence by slug equality, and resolves to `none`
(never a failure) when no entry carries the slug; concretely,
`missing-slug` resolves to `none` on the real configuration. -/
theorem c9_get_portfolio_scan (cfg : SiteConfig) (env : ProviderEnv)
    (c : Cache) (now : Nat) (slug : String) :
    (getPortfolio cfg env c now slug = none ↔
      ∀ p ∈ (getAllPortfolios cfg env c now).result, p.slug ≠ slug) ∧
    (∀ p, getPortfolio cfg env c now slug = some p →
      p.slug = slug ∧
        ∃ pre post,
          (getAllPortfolios cfg env c now).result = pre ++ p :: post ∧
            ∀ q ∈ pre, q.slug ≠ slug) ∧
    getPortfolio PORTFOLIO_CONFIG failEnv initialCache 1 "missing-slug"
      = none := by
  refine ⟨?_, ?_, by decide⟩
  · unfold getPortfolio
    rw [List.find?_eq_none]
    constructor
    · intro h p hp
      simpa using h p hp
    · intro h p hp
      simpa using h p hp
  · intro p hp
    unfold getPortfolio at hp
    rw [List.find?_eq_some] at hp
    obtain ⟨hpb, pre, post, heq, hpre⟩ := hp
    refine ⟨by simpa using hpb, pre, post, heq, ?_⟩
    intro q hq
    simpa using hpre q hq

/-- C9 witness: the documented missing slug, with the no-match hypothesis
discharged by evaluation. -/
theorem c9_witness :
    getPortfolio PORTFOLIO_CONFIG failEnv initialCache 1 "missing-slug"
      = none :=
  (c9_get_portfolio_scan PORTFOLIO_CONFIG failEnv initialCache 1
    "missing-slug").1.mpr (by decide)

/-- Mapping a function over a list without changing it fixes every
element. -/
theorem map_eq_self_pointwise {f : Char → Char} :
    ∀ {l : List Char}, l.map f = l → ∀ ch ∈ l, f ch = ch := by
  intro l
  induction l with
  | nil => intro _ ch hch; exact absurd hch (List.not_mem_nil ch)
  | cons a as ih =>
    intro h ch hch
    rw [List.map_cons, List.cons_eq_cons] at h
    rcases List.mem_cons.mp hch with hc | hc
    · rw [hc]; exact h.1
    · exact ih h.2 ch hc

/-- C10: the content fetches are keyed by the slug, which the transformer
derives by lowercasing the repository name; hence for any repository name
containing an ASCII uppercase letter, the name the provider receives for
the README and tree requests differs from the descriptor's original
name. -/
theorem c10_content_fetches_use_slug (cfg : SiteConfig) (env : ProviderEnv)
    (repo : RepoDescriptor) :
    (transformToPortfolio cfg env repo).slug = jsToLowerCase repo.name ∧
    ((repo.name.data.any fun ch =>
        decide (65 ≤ ch.toNat) && decide (ch.toNat ≤ 90)) = true →
      jsToLowerCase repo.name ≠ repo.name) ∧
    (∀ c now slug p, getPortfolio cfg env c now slug = some p →
      p.isDynamic = true →
      ∃ pc, getPortfolioContent cfg env c now slug = some pc ∧
        pc.readme
          = (match env.readmeResult slug (jsOrStr p.defaultBranch "main") with
            | .ok s => some s
            | .err => none) ∧
        pc.tree
          = (match env.treeResult slug (jsOrStr p.defaultBranch "main") with
            | .ok t => some t
            | .err => none)) := by
  refine ⟨rfl, ?_, ?_⟩
  · intro h hx
    rw [List.any_eq_true] at h
    obtain ⟨ch, hmem, hch⟩ := h
    rw [Bool.and_eq_true, decide_eq_true_eq, decide_eq_true_eq] at hch
    have hdata : toLowerList repo.name.data = repo.name.data :=
      congrArg String.data hx
    exact toLower_ne_of_upper hch.1 hch.2
      (map_eq_self_pointwise hdata ch hmem)
  · intro c now slug p hp hd
    unfold getPortfolioContent
    rw [hp]
    simp only [hd, if_true]
    exact ⟨_, rfl, rfl, rfl⟩

/-- C10 witness: the Apple repository, whose name contains an uppercase
letter. -/
theorem c10_witness :
    jsToLowerCase sampleRepoApple.name ≠ sampleRepoApple.name :=
  (c10_content_fetches_use_slug sampleCfg sampleEnv sampleRepoApple).2.1
    (by decide)

end TrizlySite
